import Mathlib

/-
Verification of record_mysql (define-record-mysql-python) against its design
specification.

The Python sources under src/record_mysql are shallowly embedded: Python
values that flow through the mapper layer are modelled by the dynamic type
`PyVal`; dictionaries are association lists of (key, value) pairs in
insertion order, as CPython dicts are ordered; functions that can raise are
modelled in `Except String`, with the error string naming the Python
exception class.  External collaborators (the `server` module, the define
schema library, child mappers) appear as explicit parameters.
-/

/-- PyVal models a dynamic Python value as it flows through record_mysql:
strings, ints, bools, None, lists, and dicts (association lists in insertion
order, keys being themselves values, as in Python). -/
inductive PyVal : Type
  | vstr (s : String)
  | vint (n : Int)
  | vbool (b : Bool)
  | vnone
  | vlist (l : List PyVal)
  | vdict (d : List (PyVal × PyVal))

/-- Row models one table row / one Python dict with PyVal keys and values. -/
abbrev Row := List (PyVal × PyVal)

mutual
/-- pyBeq models Python `==` on the values of `PyVal` (structural; values of
different types compare unequal, as the types used here do in Python). -/
def pyBeq : PyVal → PyVal → Bool
  | .vstr a, .vstr b => a == b
  | .vint a, .vint b => a == b
  | .vbool a, .vbool b => a == b
  | .vnone, .vnone => true
  | .vlist a, .vlist b => pyBeqList a b
  | .vdict a, .vdict b => pyBeqPairs a b
  | _, _ => false

/-- pyBeqList compares two Python lists elementwise. -/
def pyBeqList : List PyVal → List PyVal → Bool
  | [], [] => true
  | a :: la, b :: lb => pyBeq a b && pyBeqList la lb
  | _, _ => false

/-- pyBeqPairs compares two dicts as ordered association lists. -/
def pyBeqPairs : List (PyVal × PyVal) → List (PyVal × PyVal) → Bool
  | [], [] => true
  | (k1, v1) :: la, (k2, v2) :: lb => pyBeq k1 k2 && pyBeq v1 v2 && pyBeqPairs la lb
  | _, _ => false
end

/-- keyInS models Python `f in d` for a dict `d` and a string key `f`. -/
def keyInS (d : Row) (f : String) : Bool :=
  d.any (fun kv => pyBeq kv.1 (.vstr f))

/-- pyGetRow models Python `d[f]` on a dict for a string key: the value, or a
KeyError. -/
def pyGetRow (d : Row) (f : String) : Except String PyVal :=
  match d.find? (fun kv => pyBeq kv.1 (.vstr f)) with
  | some kv => .ok kv.2
  | none => .error "KeyError"

/-- getD is the total variant of dict lookup used in specification-side
statements: the value under string key `f`, or None when absent. -/
def getD (d : Row) (f : String) : PyVal :=
  match d.find? (fun kv => pyBeq kv.1 (.vstr f)) with
  | some kv => kv.2
  | none => .vnone

/-- setKeyV models Python `d[k] = v`: replace in place, else append. -/
def setKeyV (d : Row) (k : PyVal) (v : PyVal) : Row :=
  if d.any (fun kv => pyBeq kv.1 k) then
    d.map (fun kv => if pyBeq kv.1 k then (kv.1, v) else kv)
  else d ++ [(k, v)]

/-- setKey is `setKeyV` for a string key, i.e. Python `d["f"] = v`. -/
def setKey (d : Row) (f : String) (v : PyVal) : Row :=
  setKeyV d (.vstr f) v

/-- dictUpdate models Python `d.update(other)` for dicts. -/
def dictUpdate (d : Row) (other : Row) : Row :=
  other.foldl (fun acc kv => setKeyV acc kv.1 kv.2) d

/-- without1 models `tools.without(d, field)`: a copy of the dict without the
given string key. -/
def without1 (d : Row) (field : String) : Row :=
  d.filter (fun kv => !(pyBeq kv.1 (.vstr field)))

/-- withoutKeys models `tools.without(d, fields)` for a list of keys. -/
def withoutKeys (d : Row) (fields : List String) : Row :=
  d.filter (fun kv => !(fields.any (fun f => pyBeq kv.1 (.vstr f))))

/-- pyTruthy models Python truthiness for the values of `PyVal`. -/
def pyTruthy : PyVal → Bool
  | .vstr s => s.length ≠ 0
  | .vint n => n ≠ 0
  | .vbool b => b
  | .vnone => false
  | .vlist l => !l.isEmpty
  | .vdict d => !d.isEmpty

/-- hasKeyB models Python `k in v` for the container values that appear as
mapper revision results (dict: key membership; list: element membership;
other values give False here, no such value reaches this test in the code). -/
def hasKeyB (v : PyVal) (k : String) : Bool :=
  match v with
  | .vdict d => keyInS d k
  | .vlist l => l.any (fun x => pyBeq x (.vstr k))
  | _ => false

/-- pyGetKey models Python `v[k]` for a string key on an arbitrary value:
dict lookup, TypeError on a list or any other non-dict. -/
def pyGetKey (v : PyVal) (k : String) : Except String PyVal :=
  match v with
  | .vdict d => pyGetRow d k
  | .vlist _ => .error "TypeError: list indices must be integers"
  | _ => .error "TypeError: value is not subscriptable"

/-- getKeyD is the total variant of `pyGetKey` used in specification-side
statements (None when absent or not a dict). -/
def getKeyD (v : PyVal) (k : String) : PyVal :=
  match v with
  | .vdict d => getD d k
  | _ => .vnone

/-- exceptIsOk reports whether an `Except` computation succeeded. -/
def exceptIsOk {α β : Type} : Except α β → Bool
  | .ok _ => true
  | .error _ => false

/-!
## Leveled mapper: _flatten and _elevate (src/record_mysql/leveled.py)

A Leveled mapper is characterised by its ordered level-column names
(`self._levels`, e.g. ["_a_0"]; every level added past the first is named
`_a_i`, leveled.py line 90) and by `self._node` (True when the innermost
child is a Leaf, so the table has the single `_value` column).
-/

/-- isArrayLevel models `field[1:2] == "a"` (leveled.py lines 209, 332). -/
def isArrayLevel (field : String) : Bool :=
  field.toList.get? 1 == some 'a'

/-- isHashLevel models `field[1:2] == "h"` (leveled.py lines 265, 370). -/
def isHashLevel (field : String) : Bool :=
  field.toList.get? 1 == some 'h'

/-- assocAppend groups a row under a key, preserving first-seen key order:
models `dRet[d[field]].append(x)` with the KeyError fallback
`dRet[d[field]] = [x]` (leveled.py lines 273-277). -/
def assocAppend (d : List (PyVal × List Row)) (k : PyVal) (r : Row) :
    List (PyVal × List Row) :=
  if d.any (fun kv => pyBeq kv.1 k) then
    d.map (fun kv => if pyBeq kv.1 k then (kv.1, kv.2 ++ [r]) else kv)
  else d ++ [(k, [r])]

/-- elevateArrayGroupStep is one iteration of the array grouping loop of
`Leveled._elevate` (leveled.py lines 214-234): state is (lRet, i, l); a row
whose level value differs from `i` closes the current group. -/
def elevateArrayGroupStep (field : String)
    (acc : List (List Row) × PyVal × List Row) (d : Row) :
    Except String (List (List Row) × PyVal × List Row) :=
  match pyGetRow d field with
  | .error e => .error e
  | .ok dv =>
    let (lRet, i, l) := acc
    if pyBeq i dv then .ok (lRet, i, l ++ [without1 d field])
    else .ok (lRet ++ [l], dv, [without1 d field])

/-- leveledElevate embeds `Leveled._elevate(rows, level)` (leveled.py lines
189-304).  Faithful points: the array branch groups rows by runs of the
level value starting from `i = 0`; at the last level it executes
`lRet = lRet[0]["_value"]` (node) or `lRet = lRet[0]` (record) on the list
of groups - the string subscript of a list is a Python TypeError and the
`[0]` of an empty list an IndexError; at a non-last level each group is
passed to `self._arrays_of_arrays`, a method that exists nowhere on
`Leveled`/`Base`, so the first loop iteration raises AttributeError via
`Base.__getattr__` (base.py lines 72-112; schema field names cannot be
`_arrays_of_arrays`, so `__getitem__` always falls through to the error). -/
def leveledElevate (levels : List String) (node : Bool) (rows : List Row)
    (level : Nat) : Except String PyVal :=
  match levels.get? level with
  | none => .error "IndexError: list index out of range"
  | some field =>
    if isArrayLevel field then
      match rows.foldlM (elevateArrayGroupStep field) ([], PyVal.vint 0, []) with
      | .error e => .error e
      | .ok (lRet0, _, l) =>
        let lRet := if l.isEmpty then lRet0 else lRet0 ++ [l]
        if level + 1 == levels.length then
          if node then
            match lRet with
            | [] => .error "IndexError: list index out of range"
            | _ :: _ => .error "TypeError: list indices must be integers"
          else
            match lRet with
            | [] => .error "IndexError: list index out of range"
            | g :: _ => .ok (.vlist (g.map PyVal.vdict))
        else
          if lRet.isEmpty then .ok (.vlist [])
          else .error "AttributeError: _arrays_of_arrays"
    else if isHashLevel field then
      match rows.foldlM (fun (dRet : List (PyVal × List Row)) d =>
          (match pyGetRow d field with
           | .error e => .error e
           | .ok k => .ok (assocAppend dRet k (without1 d field)) :
           Except String (List (PyVal × List Row)))) [] with
      | .error e => .error e
      | .ok dRet =>
        if level + 1 == levels.length then
          match dRet.mapM (fun kv =>
              (match kv.2 with
               | [] => .error "IndexError: list index out of range"
               | g0 :: _ =>
                 if node then
                   match pyGetRow g0 "_value" with
                   | .error e => .error e
                   | .ok v => .ok (kv.1, v)
                 else .ok (kv.1, PyVal.vdict g0) :
               Except String (PyVal × PyVal))) with
          | .error e => .error e
          | .ok pairs => .ok (.vdict pairs)
        else
          if dRet.isEmpty then .ok (.vdict [])
          else .error "AttributeError: _arrays_of_arrays"
    else .error "ValueError: level"

mutual
/-- leveledFlatten embeds `Leveled._flatten(data, level, row)` (leveled.py
lines 306-415); the remaining level columns are passed as a list, so
`field = self._levels[level]` is its head and the last level is reached when
the tail is empty. -/
def leveledFlatten (node : Bool) : List String → PyVal → Row →
    Except String (List Row)
  | [], _, _ => .error "IndexError: list index out of range"
  | field :: rest, data, row =>
    if isArrayLevel field then
      match data with
      | .vlist items => flattenArrayItems node field rest items 0 row
      | _ => .error "TypeError: object is not a list"
    else if isHashLevel field then
      match data with
      | .vdict pairs => flattenHashItems node field rest pairs row
      | _ => .error "TypeError: object is not a dict"
    else .error "ValueError: level"
termination_by levels _ _ => (levels.length, 1, 0)

/-- flattenArrayItems is the `for i in range(len(data))` loop of the array
branch of `Leveled._flatten` (leveled.py lines 335-367). -/
def flattenArrayItems (node : Bool) (field : String) (rest : List String) :
    List PyVal → Int → Row → Except String (List Row)
  | [], _, _ => .ok []
  | item :: items, i, row =>
    let dRow := setKey row field (.vint i)
    if rest.isEmpty then
      match (if node then Except.ok (setKey dRow "_value" item)
             else match item with
                  | .vdict pairs => Except.ok (dictUpdate dRow pairs)
                  | _ => Except.error "TypeError: update expects a dict" :
             Except String Row) with
      | .error e => .error e
      | .ok dRow2 =>
        match flattenArrayItems node field rest items (i + 1) row with
        | .error e => .error e
        | .ok more => .ok (dRow2 :: more)
    else
      match leveledFlatten node rest item dRow with
      | .error e => .error e
      | .ok sub =>
        match flattenArrayItems node field rest items (i + 1) row with
        | .error e => .error e
        | .ok more => .ok (sub ++ more)
termination_by items _ _ => (rest.length + 1, 0, items.length)

/-- flattenHashItems is the `for k in data` loop of the hash branch of
`Leveled._flatten` (leveled.py lines 373-408).  At the last level the source
appends `dRow` to the result twice (lines 393 and 396), which is kept. -/
def flattenHashItems (node : Bool) (field : String) (rest : List String) :
    List (PyVal × PyVal) → Row → Except String (List Row)
  | [], _ => .ok []
  | (k, v) :: pairs, row =>
    let dRow := setKey row field k
    if rest.isEmpty then
      match (if node then Except.ok (setKey dRow "_value" v)
             else match v with
                  | .vdict ps => Except.ok (dictUpdate dRow ps)
                  | _ => Except.error "TypeError: update expects a dict" :
             Except String Row) with
      | .error e => .error e
      | .ok dRow2 =>
        match flattenHashItems node field rest pairs row with
        | .error e => .error e
        | .ok more => .ok (dRow2 :: dRow2 :: more)
    else
      match leveledFlatten node rest v dRow with
      | .error e => .error e
      | .ok sub =>
        match flattenHashItems node field rest pairs row with
        | .error e => .error e
        | .ok more => .ok (sub ++ more)
termination_by pairs _ => (rest.length + 1, 0, pairs.length)
end

/-- assocSet models the dict comprehension `{d["_id"]: d for d in rows}`:
insert keeping position of an existing key, else append. -/
def assocSet (m : List (PyVal × Row)) (k : PyVal) (r : Row) :
    List (PyVal × Row) :=
  if m.any (fun kv => pyBeq kv.1 k) then
    m.map (fun kv => if pyBeq kv.1 k then (kv.1, r) else kv)
  else m ++ [(k, r)]

/-- leveledGet embeds `Leveled.get(id)` (leveled.py lines 474-505): the rows
selected for `_parent = id` (passed in as `selectRows`, ordered by the level
columns as the backend returns them) are keyed by `d["_id"]`, each child
mapper result is merged under its field name (`childGet f rowId` standing
for `self._complex[f].get(sID)`), and the combined rows are elevated. -/
def leveledGet (levels : List String) (node : Bool)
    (complexNames : List String) (childGet : String → PyVal → PyVal)
    (selectRows : List Row) : Except String PyVal :=
  match selectRows.foldlM (fun (acc : List (PyVal × Row)) d =>
      (match pyGetRow d "_id" with
       | .error e => .error e
       | .ok i => .ok (assocSet acc i d) :
       Except String (List (PyVal × Row)))) [] with
  | .error e => .error e
  | .ok dRows =>
    let dRows2 := complexNames.foldl (fun acc f =>
        acc.map (fun kv => (kv.1, setKey kv.2 f (childGet f kv.1)))) dRows
    leveledElevate levels node (dRows2.map (fun kv => kv.2)) 0

example : leveledFlatten true ["_a_0"] (.vlist [.vstr "x", .vstr "y"]) [] =
    .ok [[(.vstr "_a_0", .vint 0), (.vstr "_value", .vstr "x")],
         [(.vstr "_a_0", .vint 1), (.vstr "_value", .vstr "y")]] := by
  simp [leveledFlatten, flattenArrayItems, isArrayLevel, setKey, setKeyV, pyBeq]

example :
    leveledElevate ["_a_0"] true
      [[(.vstr "_a_0", .vint 0), (.vstr "_value", .vstr "x")],
       [(.vstr "_a_0", .vint 1), (.vstr "_value", .vstr "y")]] 0 =
    .error "TypeError: list indices must be integers" := by
  simp [leveledElevate, isArrayLevel, elevateArrayGroupStep, pyGetRow, pyBeq,
    without1, List.foldlM, Except.bind, Bind.bind, Pure.pure, Except.pure]

example : leveledElevate ["_a_0"] true [] 0 =
    .error "IndexError: list index out of range" := by
  simp [leveledElevate, isArrayLevel, List.foldlM, Except.bind, Bind.bind,
    Pure.pure, Except.pure]

/-!
## Parent mapper: set with return_revisions=True (src/record_mysql/parent.py)

`Parent.set(id, values, return_revisions, ta)` is embedded for the
`return_revisions = True`, transaction-passed-in case (parent.py lines
212-375; with `ta` supplied the queued statements are extended onto the
caller's transaction, line 363-365, and the revision structure is returned
as is).  The external pieces appear as parameters: `dRowIn` is the result of
`self._table.select(where = (_id = id), limit = (1,))`, and `childRes f`
stands for the value returned by `self._complex[f].set(id, values[f], True,
lTA)`.  The queued insert/update statements themselves are not modelled
(they are the subject of the transaction model further below), but every
branch condition and error that the source hits while assembling the
revision structure is kept, including the `dValues = None` slip of parent.py
line 270.
-/

/-- columnsNoneCheck is the loop of parent.py lines 268-270: `for f in
self._columns: if f not in dValues: dValues = None`.  Once `dValues` is
None, the next membership test `f not in dValues` raises TypeError. -/
def columnsNoneCheck : List String → Option Row → Except String (Option Row)
  | [], st => .ok st
  | f :: rest, st =>
    match st with
    | none => .error "TypeError: argument of type NoneType is not iterable"
    | some d => columnsNoneCheck rest (if keyInS d f then some d else none)

/-- insertRevs is the insert branch of parent.py lines 279-290: one
`(old None / new dValues[f])` revision entry per column, each incrementing
`iFullChange`.  `dValues[f]` on a None `dValues` raises TypeError. -/
def insertRevs : List String → Option Row →
    Except String (List (PyVal × PyVal) × Nat)
  | [], _ => .ok ([], 0)
  | f :: rest, dValues =>
    match dValues with
    | none => .error "TypeError: NoneType object is not subscriptable"
    | some d =>
      match pyGetRow d f with
      | .error e => .error e
      | .ok v =>
        match insertRevs rest dValues with
        | .error e => .error e
        | .ok (m, n) =>
          .ok ((PyVal.vstr f,
            PyVal.vdict [(.vstr "old", .vnone), (.vstr "new", v)]) :: m, n + 1)

/-- updateScalars is the update branch of parent.py lines 294-310: for each
column, if `dRow[f] != values[f]` record an `(old dRow[f] / new dValues[f])`
entry and increment `iFullChange`, else `del dValues[f]`. -/
def updateScalars : List String → Row → Row → Option Row →
    Except String (List (PyVal × PyVal) × Nat × Option Row)
  | [], _, _, dValues => .ok ([], 0, dValues)
  | f :: rest, dRow, values, dValues =>
    match pyGetRow dRow f with
    | .error e => .error e
    | .ok vRow =>
      match pyGetRow values f with
      | .error e => .error e
      | .ok vVal =>
        if !(pyBeq vRow vVal) then
          match (match dValues with
                 | none => Except.error "TypeError: NoneType object is not subscriptable"
                 | some d => pyGetRow d f : Except String PyVal) with
          | .error e => .error e
          | .ok vNew =>
            match updateScalars rest dRow values dValues with
            | .error e => .error e
            | .ok (m, n, dv) =>
              .ok ((PyVal.vstr f,
                PyVal.vdict [(.vstr "old", vRow), (.vstr "new", vNew)]) :: m,
                n + 1, dv)
        else
          match dValues with
          | none => .error "TypeError: NoneType object does not support item deletion"
          | some d => updateScalars rest dRow values (some (without1 d f))

/-- childSetLoop is the complex-field loop of parent.py lines 320-344: the
child set result is merged under the field name when truthy, and
`iFullChange` is incremented when it carries both an `old` and a `new` key.
`values[f]` raises KeyError when the field is absent from `values`. -/
def childSetLoop (values : Row) (childRes : String → PyVal) :
    List String → Except String (List (PyVal × PyVal) × Nat)
  | [] => .ok ([], 0)
  | f :: rest =>
    match pyGetRow values f with
    | .error e => .error e
    | .ok _ =>
      let res := childRes f
      match childSetLoop values childRes rest with
      | .error e => .error e
      | .ok (m, n) =>
        if pyTruthy res then
          .ok ((PyVal.vstr f, res) :: m,
            n + (if hasKeyB res "old" && hasKeyB res "new" then 1 else 0))
        else .ok (m, n)

/-- reorderRevs is the collapse loop of parent.py lines 352-357:
`dReorder["old"][f] = mRet[f]["old"]` and the same for `new`, per entry. -/
def reorderRevs : List (PyVal × PyVal) → Except String (Row × Row)
  | [] => .ok ([], [])
  | (f, e) :: rest =>
    match pyGetKey e "old" with
    | .error msg => .error msg
    | .ok o =>
      match pyGetKey e "new" with
      | .error msg => .error msg
      | .ok n =>
        match reorderRevs rest with
        | .error msg => .error msg
        | .ok (os, ns) => .ok ((f, o) :: os, (f, n) :: ns)

/-- normRow applies Python truthiness to a selected row: a missing or empty
row dict makes `if not dRow:` (parent.py line 279) take the insert branch. -/
def normRow : Option Row → Option Row
  | some r => if r.isEmpty then none else some r
  | none => none

/-- parentSetTablePart is the own-table section of `Parent.set` (parent.py
lines 250-318): when some own column appears in `values`, strip the complex
keys, run the missing-column check, and take the insert or the update branch
depending on the selected row, returning the accumulated revision entries
and the `iFullChange` contribution. -/
def parentSetTablePart (columns complexNames : List String)
    (dRowIn : Option Row) (values : Row) :
    Except String (List (PyVal × PyVal) × Nat) :=
  if columns.any (fun f => keyInS values f) then
    let dValues0 := withoutKeys values complexNames
    match columnsNoneCheck columns (some dValues0) with
    | .error e => .error e
    | .ok dValuesOpt =>
      match normRow dRowIn with
      | none => insertRevs columns dValuesOpt
      | some row =>
        match updateScalars columns row values dValuesOpt with
        | .error e => .error e
        | .ok (m, n, _) => .ok (m, n)
  else .ok ([], 0)

/-- parentSet embeds `Parent.set` as described in the section header: the
revision structure it returns for `return_revisions = True`.  The final
reordering happens exactly when `iFullChange` equals the count of scalar
plus complex fields (parent.py line 350). -/
def parentSet (columns complexNames : List String) (dRowIn : Option Row)
    (values : Row) (childRes : String → PyVal) : Except String PyVal :=
  match parentSetTablePart columns complexNames dRowIn values with
  | .error e => .error e
  | .ok (m1, n1) =>
    match childSetLoop values childRes complexNames with
    | .error e => .error e
    | .ok (m2, n2) =>
      let mRet := m1 ++ m2
      let iFullChange := n1 + n2
      if iFullChange == columns.length + complexNames.length then
        match reorderRevs mRet with
        | .error e => .error e
        | .ok (os, ns) =>
          .ok (.vdict [(.vstr "old", .vdict os), (.vstr "new", .vdict ns)])
      else if mRet.isEmpty then .ok (.vbool false)
      else .ok (.vdict mRet)

/-- specScalarEntries is the specification-side list of scalar revision
entries of a `set` call: one `(old None, new incoming)` entry per column
when the row is newly inserted, and one `(old stored, new incoming)` entry
per column whose stored value differs from the incoming one when the row
existed. -/
def specScalarEntries (columns : List String) (dRowIn : Option Row)
    (values : Row) : List (PyVal × PyVal) :=
  match normRow dRowIn with
  | none => columns.map (fun f =>
      (PyVal.vstr f,
       PyVal.vdict [(.vstr "old", .vnone), (.vstr "new", getD values f)]))
  | some row =>
    (columns.filter (fun f => !(pyBeq (getD row f) (getD values f)))).map
      (fun f => (PyVal.vstr f,
        PyVal.vdict [(.vstr "old", getD row f), (.vstr "new", getD values f)]))

/-- specScalarCount is the number of wholly changed scalar columns: all of
them on a fresh insert, the differing ones on an update. -/
def specScalarCount (columns : List String) (dRowIn : Option Row)
    (values : Row) : Nat :=
  match normRow dRowIn with
  | none => columns.length
  | some row =>
    (columns.filter (fun f => !(pyBeq (getD row f) (getD values f)))).length

/-- specChildEntries is the specification-side list of child revision
entries: one per complex field whose set result is truthy. -/
def specChildEntries (complexNames : List String)
    (childRes : String → PyVal) : List (PyVal × PyVal) :=
  (complexNames.filter (fun f => pyTruthy (childRes f))).map
    (fun f => (PyVal.vstr f, childRes f))

/-- specFullyChanged is the specification-side count of wholly changed
fields for a `set` call: every scalar column when the row is newly inserted,
the columns whose stored value differs from the incoming value when the row
existed, plus the complex children whose set result is truthy and carries
both an `old` and a `new` key. -/
def specFullyChanged (columns complexNames : List String)
    (dRowIn : Option Row) (values : Row) (childRes : String → PyVal) : Nat :=
  specScalarCount columns dRowIn values +
  (complexNames.filter (fun f =>
    pyTruthy (childRes f) && hasKeyB (childRes f) "old" &&
      hasKeyB (childRes f) "new")).length

/-- specSetResult states the amended revision contract of `Parent.set` in
specification terms: one `(old, new)` entry per newly inserted scalar, per
in-place-changed scalar and per truthy child result; if the wholly-changed
count of `specFullyChanged` equals the total field count the whole result
collapses into a single pair of `old`/`new` record dicts, otherwise the
per-field map is returned, or False when it is empty. -/
def specSetResult (columns complexNames : List String) (dRowIn : Option Row)
    (values : Row) (childRes : String → PyVal) : PyVal :=
  let entries := specScalarEntries columns dRowIn values ++
    specChildEntries complexNames childRes
  if specFullyChanged columns complexNames dRowIn values childRes =
      columns.length + complexNames.length then
    .vdict [(.vstr "old", .vdict (entries.map (fun kv => (kv.1, getKeyD kv.2 "old")))),
            (.vstr "new", .vdict (entries.map (fun kv => (kv.1, getKeyD kv.2 "new"))))]
  else if entries.isEmpty then .vbool false
  else .vdict entries

example :
    parentSet ["a"] [] (some [(.vstr "a", .vint 1)]) [(.vstr "a", .vint 2)]
      (fun _ => .vbool false) =
    .ok (.vdict [(.vstr "old", .vdict [(.vstr "a", .vint 1)]),
                 (.vstr "new", .vdict [(.vstr "a", .vint 2)])]) := by
  simp [parentSet, parentSetTablePart, normRow, columnsNoneCheck,
    updateScalars, childSetLoop, reorderRevs, pyGetRow, pyGetKey, keyInS,
    pyBeq, withoutKeys, without1]

/-! Helper lemmas relating the embedded loops of `Parent.set` to their
specification-side forms. -/

/-- pyBeq on two string values is string equality. -/
theorem pyBeq_vstr (a b : String) : pyBeq (.vstr a) (.vstr b) = (a == b) := by
  simp [pyBeq]

/-- pyBeq against a string value holds exactly for that string value. -/
theorem pyBeq_vstr_iff (x : PyVal) (s : String) :
    pyBeq x (.vstr s) = true ↔ x = .vstr s := by
  cases x <;> simp [pyBeq]

/-- filterLenAll: a filter that keeps the whole length keeps everything. -/
theorem filterLenAll {α : Type} {p : α → Bool} :
    ∀ {l : List α}, (l.filter p).length = l.length → ∀ a ∈ l, p a := by
  intro l
  induction l with
  | nil => intro _ a ha; cases ha
  | cons x xs ih =>
    intro h a ha
    by_cases hp : p x
    · rw [List.filter_cons, if_pos (by simpa using hp), List.length_cons,
        List.length_cons, Nat.add_right_cancel_iff] at h
      rcases List.mem_cons.mp ha with rfl | hmem
      · exact hp
      · exact ih h a hmem
    · rw [List.filter_cons, if_neg (by simpa using hp), List.length_cons] at h
      have := List.length_filter_le p xs
      exact absurd h (by omega)

/-- pyGetRow agrees with the total lookup on present keys. -/
theorem pyGetRow_eq_getD : ∀ {d : Row} {f : String}, keyInS d f = true →
    pyGetRow d f = .ok (getD d f) := by
  intro d f h
  induction d with
  | nil => simp [keyInS] at h
  | cons kv rest ih =>
    by_cases hb : pyBeq kv.1 (.vstr f) = true
    · simp [pyGetRow, getD, List.find?_cons, hb]
    · have h2 : keyInS rest f = true := by
        unfold keyInS at h ⊢
        simpa [List.any_cons, hb] using h
      have := ih h2
      unfold pyGetRow getD at this ⊢
      simpa [List.find?_cons, hb] using this

/-- getD steps over a non-matching head pair. -/
theorem getD_cons_neg {kv : PyVal × PyVal} {rest : Row} {f : String}
    (h : ¬ pyBeq kv.1 (.vstr f) = true) :
    getD (kv :: rest) f = getD rest f := by
  unfold getD
  rw [List.find?_cons_of_neg _ (by simpa using h)]

/-- getD returns a matching head pair. -/
theorem getD_cons_pos {kv : PyVal × PyVal} {rest : Row} {f : String}
    (h : pyBeq kv.1 (.vstr f) = true) :
    getD (kv :: rest) f = kv.2 := by
  unfold getD
  rw [List.find?_cons_of_pos _ (by simpa using h)]

/-- keyInS unfolded one pair at a time. -/
theorem keyInS_cons {kv : PyVal × PyVal} {rest : Row} {f : String} :
    keyInS (kv :: rest) f = (pyBeq kv.1 (.vstr f) || keyInS rest f) := by
  unfold keyInS
  rw [List.any_cons]

/-- Removing a different key does not change membership. -/
theorem keyInS_without1 {f g : String} (hne : f ≠ g) :
    ∀ {d : Row}, keyInS (without1 d g) f = keyInS d f := by
  intro d
  induction d with
  | nil => simp [without1, keyInS]
  | cons kv rest ih =>
    unfold without1 at ih
    show keyInS (List.filter _ (kv :: rest)) f = _
    rw [List.filter_cons]
    by_cases hb : pyBeq kv.1 (.vstr g) = true
    · have hkv : kv.1 = .vstr g := (pyBeq_vstr_iff kv.1 g).mp hb
      have hbf : ¬ pyBeq kv.1 (.vstr f) = true := by
        rw [hkv, pyBeq_vstr]
        simpa using fun hgf => hne (hgf.symm)
      rw [if_neg (by simpa using hb), keyInS_cons,
        Bool.eq_false_iff.mpr hbf, Bool.false_or]
      exact ih
    · rw [if_pos (by simpa using hb), keyInS_cons, keyInS_cons, ih]

/-- Removing a different key does not change the looked-up value. -/
theorem getD_without1 {f g : String} (hne : f ≠ g) :
    ∀ {d : Row}, getD (without1 d g) f = getD d f := by
  intro d
  induction d with
  | nil => simp [without1, getD]
  | cons kv rest ih =>
    unfold without1 at ih
    show getD (List.filter _ (kv :: rest)) f = _
    rw [List.filter_cons]
    by_cases hb : pyBeq kv.1 (.vstr g) = true
    · have hkv : kv.1 = .vstr g := (pyBeq_vstr_iff kv.1 g).mp hb
      have hbf : ¬ pyBeq kv.1 (.vstr f) = true := by
        rw [hkv, pyBeq_vstr]
        simpa using fun hgf => hne (hgf.symm)
      rw [if_neg (by simpa using hb), getD_cons_neg hbf]
      exact ih
    · rw [if_pos (by simpa using hb)]
      by_cases hbf : pyBeq kv.1 (.vstr f) = true
      · rw [getD_cons_pos hbf, getD_cons_pos hbf]
      · rw [getD_cons_neg hbf, getD_cons_neg hbf, ih]

/-- Stripping keys not containing `f` does not change membership of `f`. -/
theorem keyInS_withoutKeys {f : String} {ks : List String} (h : ¬ f ∈ ks) :
    ∀ {d : Row}, keyInS (withoutKeys d ks) f = keyInS d f := by
  intro d
  induction d with
  | nil => simp [withoutKeys, keyInS]
  | cons kv rest ih =>
    unfold withoutKeys at ih
    show keyInS (List.filter _ (kv :: rest)) f = _
    rw [List.filter_cons]
    by_cases hb : (ks.any (fun g => pyBeq kv.1 (.vstr g))) = true
    · have hbf : ¬ pyBeq kv.1 (.vstr f) = true := by
        rcases List.any_eq_true.mp hb with ⟨g, hg, hbeq⟩
        have hkv : kv.1 = .vstr g := (pyBeq_vstr_iff kv.1 g).mp hbeq
        rw [hkv, pyBeq_vstr]
        simp only [beq_iff_eq]
        intro hgf
        exact h (hgf ▸ hg)
      rw [if_neg (by simpa using hb), keyInS_cons,
        Bool.eq_false_iff.mpr hbf, Bool.false_or]
      exact ih
    · rw [if_pos (by simpa using hb), keyInS_cons, keyInS_cons, ih]

/-- Stripping keys not containing `f` does not change the value of `f`. -/
theorem getD_withoutKeys {f : String} {ks : List String} (h : ¬ f ∈ ks) :
    ∀ {d : Row}, getD (withoutKeys d ks) f = getD d f := by
  intro d
  induction d with
  | nil => simp [withoutKeys, getD]
  | cons kv rest ih =>
    unfold withoutKeys at ih
    show getD (List.filter _ (kv :: rest)) f = _
    rw [List.filter_cons]
    by_cases hb : (ks.any (fun g => pyBeq kv.1 (.vstr g))) = true
    · have hbf : ¬ pyBeq kv.1 (.vstr f) = true := by
        rcases List.any_eq_true.mp hb with ⟨g, hg, hbeq⟩
        have hkv : kv.1 = .vstr g := (pyBeq_vstr_iff kv.1 g).mp hbeq
        rw [hkv, pyBeq_vstr]
        simp only [beq_iff_eq]
        intro hgf
        exact h (hgf ▸ hg)
      rw [if_neg (by simpa using hb), getD_cons_neg hbf]
      exact ih
    · rw [if_pos (by simpa using hb)]
      by_cases hbf : pyBeq kv.1 (.vstr f) = true
      · rw [getD_cons_pos hbf, getD_cons_pos hbf]
      · rw [getD_cons_neg hbf, getD_cons_neg hbf, ih]

/-- columnsNoneCheck keeps the dict when every column is present. -/
theorem columnsNoneCheck_all : ∀ {columns : List String} {d : Row},
    (∀ f ∈ columns, keyInS d f = true) →
    columnsNoneCheck columns (some d) = .ok (some d) := by
  intro columns
  induction columns with
  | nil => intro d _; simp [columnsNoneCheck]
  | cons c cs ih =>
    intro d h
    have hc : keyInS d c = true := h c (by simp)
    simp only [columnsNoneCheck, hc, if_pos]
    exact ih (fun f hf => h f (by simp [hf]))

/-- insertRevs on a dict holding every column produces one (old None / new
value) entry per column and counts every column. -/
theorem insertRevs_spec : ∀ {columns : List String} {d : Row},
    (∀ f ∈ columns, keyInS d f = true) →
    insertRevs columns (some d) =
      .ok (columns.map (fun f => (PyVal.vstr f,
             PyVal.vdict [(.vstr "old", .vnone), (.vstr "new", getD d f)])),
           columns.length) := by
  intro columns
  induction columns with
  | nil => intro d _; simp [insertRevs]
  | cons c cs ih =>
    intro d h
    have hc := pyGetRow_eq_getD (h c (by simp))
    rw [insertRevs, hc, ih (fun f hf => h f (by simp [hf]))]
    simp

/-- updateScalars with all columns present in the row, the values and the
stripped values dict produces one (old stored / new incoming) entry per
column whose stored value differs, counting exactly those columns. -/
theorem updateScalars_spec : ∀ (columns : List String) (row values d : Row),
    columns.Nodup →
    (∀ f ∈ columns, keyInS row f = true) →
    (∀ f ∈ columns, keyInS values f = true) →
    (∀ f ∈ columns, keyInS d f = true) →
    (∀ f ∈ columns, getD d f = getD values f) →
    ∃ dv, updateScalars columns row values (some d) =
      .ok ((columns.filter
              (fun f => !(pyBeq (getD row f) (getD values f)))).map
             (fun f => (PyVal.vstr f,
               PyVal.vdict [(.vstr "old", getD row f),
                            (.vstr "new", getD values f)])),
           (columns.filter
              (fun f => !(pyBeq (getD row f) (getD values f)))).length,
           dv) := by
  intro columns
  induction columns with
  | nil =>
    intro row values d _ _ _ _ _
    exact ⟨some d, by simp [updateScalars]⟩
  | cons c cs ih =>
    intro row values d hnd hr hv hd hagree
    have hrc := pyGetRow_eq_getD (hr c (by simp))
    have hvc := pyGetRow_eq_getD (hv c (by simp))
    have hdc := pyGetRow_eq_getD (hd c (by simp))
    have hndc : ¬ c ∈ cs := (List.nodup_cons.mp hnd).1
    have hndcs : cs.Nodup := (List.nodup_cons.mp hnd).2
    by_cases hb : pyBeq (getD row c) (getD values c) = true
    · -- stored value equals incoming value: the column is deleted from
      -- dValues and produces no entry
      obtain ⟨dv, hrec⟩ := ih row values (without1 d c) hndcs
        (fun f hf => hr f (by simp [hf]))
        (fun f hf => hv f (by simp [hf]))
        (fun f hf => by
          rw [keyInS_without1 (fun he => hndc (by rwa [he] at hf))]
          exact hd f (by simp [hf]))
        (fun f hf => by
          rw [getD_without1 (fun he => hndc (by rwa [he] at hf))]
          exact hagree f (by simp [hf]))
      refine ⟨dv, ?_⟩
      rw [updateScalars, hrc, hvc]
      simp only [hb, Bool.not_true, Bool.false_eq_true, if_false]
      rw [hrec, List.filter_cons, if_neg (by simp [hb])]
    · -- differing value: one entry, counted
      obtain ⟨dv, hrec⟩ := ih row values d hndcs
        (fun f hf => hr f (by simp [hf]))
        (fun f hf => hv f (by simp [hf]))
        (fun f hf => hd f (by simp [hf]))
        (fun f hf => hagree f (by simp [hf]))
      refine ⟨dv, ?_⟩
      rw [updateScalars, hrc, hvc]
      simp only [Bool.not_eq_true] at hb
      simp only [hb, Bool.not_false, if_true]
      rw [hdc, hrec, List.filter_cons, if_pos (by simp [hb])]
      simp [hagree c (by simp)]

/-- childSetLoop merges one entry per truthy child result and counts the
truthy results carrying both an old and a new key. -/
theorem childSetLoop_spec : ∀ {complexNames : List String} {values : Row}
    {childRes : String → PyVal},
    (∀ f ∈ complexNames, keyInS values f = true) →
    childSetLoop values childRes complexNames =
      .ok ((complexNames.filter (fun f => pyTruthy (childRes f))).map
             (fun f => (PyVal.vstr f, childRes f)),
           (complexNames.filter (fun f => pyTruthy (childRes f) &&
              hasKeyB (childRes f) "old" &&
              hasKeyB (childRes f) "new")).length) := by
  intro complexNames
  induction complexNames with
  | nil => intro values childRes _; simp [childSetLoop]
  | cons c cs ih =>
    intro values childRes h
    have hc := pyGetRow_eq_getD (h c (by simp))
    rw [childSetLoop, hc, ih (fun f hf => h f (by simp [hf]))]
    by_cases ht : pyTruthy (childRes c) = true
    · by_cases hk : (hasKeyB (childRes c) "old" &&
          hasKeyB (childRes c) "new") = true
      · simp [ht, hk, List.filter_cons]
      · simp only [Bool.and_eq_true, not_and] at hk
        simp only [ht, if_true, List.filter_cons]
        by_cases h1 : hasKeyB (childRes c) "old" = true
        · simp [ht, h1, hk h1]
        · simp [ht, h1]
    · simp [ht, List.filter_cons]

/-- reorderRevs splits a list of dict entries that all carry old and new
keys into the two projected dicts, in order. -/
theorem reorderRevs_spec : ∀ {m : List (PyVal × PyVal)},
    (∀ kv ∈ m, ∃ dd, kv.2 = PyVal.vdict dd ∧ keyInS dd "old" = true ∧
      keyInS dd "new" = true) →
    reorderRevs m =
      .ok (m.map (fun kv => (kv.1, getKeyD kv.2 "old")),
           m.map (fun kv => (kv.1, getKeyD kv.2 "new"))) := by
  intro m
  induction m with
  | nil => intro _; simp [reorderRevs]
  | cons kv rest ih =>
    intro h
    obtain ⟨dd, hdd, ho, hn⟩ := h kv (by simp)
    have hrec := ih (fun x hx => h x (by simp [hx]))
    obtain ⟨k, e⟩ := kv
    simp only at hdd
    subst hdd
    rw [reorderRevs]
    simp only [pyGetKey]
    rw [pyGetRow_eq_getD ho, pyGetRow_eq_getD hn, hrec]
    simp [getKeyD]

/-- normRow only produces a row that was actually selected. -/
theorem normRow_eq_some {o : Option Row} {r : Row} (h : normRow o = some r) :
    o = some r := by
  cases o with
  | none => simp [normRow] at h
  | some r2 =>
    by_cases he : r2.isEmpty <;> simp [normRow, he] at h
    rw [h]

/-- parentSetTablePart produces exactly the specification-side scalar
entries and count, provided every column is a key of `values` and of the
selected row and no column name collides with a complex field name. -/
theorem parentSetTablePart_spec (columns complexNames : List String)
    (dRowIn : Option Row) (values : Row)
    (hnd : columns.Nodup)
    (hdisj : ∀ f ∈ columns, ¬ f ∈ complexNames)
    (hvc : ∀ f ∈ columns, keyInS values f = true)
    (hrow : ∀ r, dRowIn = some r → ∀ f ∈ columns, keyInS r f = true) :
    parentSetTablePart columns complexNames dRowIn values =
      .ok (specScalarEntries columns dRowIn values,
           specScalarCount columns dRowIn values) := by
  cases hcols : columns with
  | nil =>
    cases hnr : normRow dRowIn with
    | none =>
      simp [parentSetTablePart, specScalarEntries, specScalarCount, hnr,
        columnsNoneCheck, insertRevs, updateScalars]
    | some r =>
      simp [parentSetTablePart, specScalarEntries, specScalarCount, hnr,
        columnsNoneCheck, insertRevs, updateScalars]
  | cons c cs =>
    subst hcols
    have htc : ((c :: cs).any fun f => keyInS values f) = true := by
      simp [List.any_cons, hvc c (by simp)]
    have hd0 : ∀ f ∈ c :: cs, keyInS (withoutKeys values complexNames) f = true :=
      fun f hf => by
        rw [keyInS_withoutKeys (hdisj f hf)]
        exact hvc f hf
    have hag : ∀ f ∈ c :: cs, getD (withoutKeys values complexNames) f =
        getD values f :=
      fun f hf => getD_withoutKeys (hdisj f hf)
    unfold parentSetTablePart
    rw [if_pos htc]
    simp only [columnsNoneCheck_all hd0]
    cases hnr : normRow dRowIn with
    | none =>
      simp only [insertRevs_spec hd0]
      unfold specScalarEntries specScalarCount
      rw [hnr]
      have : ((c :: cs).map (fun f => (PyVal.vstr f,
          PyVal.vdict [(.vstr "old", .vnone),
            (.vstr "new", getD (withoutKeys values complexNames) f)]))) =
          ((c :: cs).map (fun f => (PyVal.vstr f,
          PyVal.vdict [(.vstr "old", .vnone), (.vstr "new", getD values f)]))) :=
        List.map_congr_left (fun f hf => by rw [hag f hf])
      rw [this]
    | some r =>
      have hrowr : ∀ f ∈ c :: cs, keyInS r f = true :=
        hrow r (normRow_eq_some hnr)
      obtain ⟨dv, hupd⟩ := updateScalars_spec (c :: cs) r values
        (withoutKeys values complexNames) hnd hrowr hvc hd0 hag
      simp only [hupd]
      unfold specScalarEntries specScalarCount
      rw [hnr]

/-- C3 (amended): for every embedded `Parent.set` call with
`return_revisions = True` whose inputs are well-formed (every scalar column
and complex field present in `values` and in the selected row, no name
collisions, child results being dicts when truthy), the returned revision
structure is the collapsed single old/new pair exactly when the count of
wholly changed fields - scalars newly inserted, scalars whose stored value
differs from the incoming value, and complex children returning a truthy
result with both old and new keys - equals the total number of scalar plus
complex fields; otherwise it is the per-field map, or False when empty, as
stated by `specSetResult`. -/
theorem c3_set_revision_collapse
    (columns complexNames : List String) (dRowIn : Option Row) (values : Row)
    (childRes : String → PyVal)
    (hnd : columns.Nodup)
    (hdisj : ∀ f ∈ columns, ¬ f ∈ complexNames)
    (hvc : ∀ f ∈ columns, keyInS values f = true)
    (hvx : ∀ f ∈ complexNames, keyInS values f = true)
    (hrow : ∀ r, dRowIn = some r → ∀ f ∈ columns, keyInS r f = true)
    (hchild : ∀ f ∈ complexNames, pyTruthy (childRes f) = true →
      ∃ dd, childRes f = PyVal.vdict dd) :
    parentSet columns complexNames dRowIn values childRes =
      .ok (specSetResult columns complexNames dRowIn values childRes) := by
  have hn1le : specScalarCount columns dRowIn values ≤ columns.length := by
    unfold specScalarCount
    cases normRow dRowIn with
    | none => exact Nat.le_refl _
    | some r => exact List.length_filter_le _ _
  have hn2le : (complexNames.filter (fun f =>
      pyTruthy (childRes f) && hasKeyB (childRes f) "old" &&
        hasKeyB (childRes f) "new")).length ≤ complexNames.length :=
    List.length_filter_le _ _
  simp only [parentSet,
    parentSetTablePart_spec columns complexNames dRowIn values hnd hdisj hvc hrow,
    childSetLoop_spec hvx]
  by_cases hfull : specScalarCount columns dRowIn values +
      (complexNames.filter (fun f =>
        pyTruthy (childRes f) && hasKeyB (childRes f) "old" &&
          hasKeyB (childRes f) "new")).length =
      columns.length + complexNames.length
  · -- the collapse case: every entry carries an old and a new key, so the
    -- reorder loop succeeds and both sides agree
    have hn2 : (complexNames.filter (fun f =>
        pyTruthy (childRes f) && hasKeyB (childRes f) "old" &&
          hasKeyB (childRes f) "new")).length = complexNames.length := by
      omega
    have hall : ∀ f ∈ complexNames, (pyTruthy (childRes f) &&
        hasKeyB (childRes f) "old" && hasKeyB (childRes f) "new") = true :=
      filterLenAll hn2
    have hgood : ∀ kv ∈ specScalarEntries columns dRowIn values ++
        (complexNames.filter (fun f => pyTruthy (childRes f))).map
          (fun f => (PyVal.vstr f, childRes f)),
        ∃ dd, kv.2 = PyVal.vdict dd ∧ keyInS dd "old" = true ∧
          keyInS dd "new" = true := by
      intro kv hkv
      rcases List.mem_append.mp hkv with h1 | h2
      · unfold specScalarEntries at h1
        cases hnr : normRow dRowIn with
        | none =>
          rw [hnr] at h1
          rcases List.mem_map.mp h1 with ⟨f, hf, rfl⟩
          exact ⟨_, rfl, by simp [keyInS, pyBeq], by simp [keyInS, pyBeq]⟩
        | some r =>
          rw [hnr] at h1
          rcases List.mem_map.mp h1 with ⟨f, hf, rfl⟩
          exact ⟨_, rfl, by simp [keyInS, pyBeq], by simp [keyInS, pyBeq]⟩
      · rcases List.mem_map.mp h2 with ⟨f, hf, rfl⟩
        have hfc : f ∈ complexNames := (List.mem_filter.mp hf).1
        have h3 := hall f hfc
        simp only [Bool.and_eq_true] at h3
        obtain ⟨⟨ht, ho⟩, hn⟩ := h3
        obtain ⟨dd, hdd⟩ := hchild f hfc ht
        refine ⟨dd, hdd, ?_, ?_⟩
        · rw [hdd] at ho
          simpa [hasKeyB] using ho
        · rw [hdd] at hn
          simpa [hasKeyB] using hn
    rw [if_pos (show ((specScalarCount columns dRowIn values +
        (complexNames.filter (fun f =>
          pyTruthy (childRes f) && hasKeyB (childRes f) "old" &&
            hasKeyB (childRes f) "new")).length ==
        columns.length + complexNames.length) = true) by simpa using hfull)]
    simp only [reorderRevs_spec hgood]
    simp only [specSetResult, specFullyChanged, specChildEntries]
    rw [if_pos hfull]
  · rw [if_neg (show ¬ ((specScalarCount columns dRowIn values +
        (complexNames.filter (fun f =>
          pyTruthy (childRes f) && hasKeyB (childRes f) "old" &&
            hasKeyB (childRes f) "new")).length ==
        columns.length + complexNames.length) = true) by simpa using hfull)]
    simp only [specSetResult, specFullyChanged, specChildEntries]
    rw [if_neg hfull]
    by_cases he : (specScalarEntries columns dRowIn values ++
        (complexNames.filter (fun f => pyTruthy (childRes f))).map
          (fun f => (PyVal.vstr f, childRes f))).isEmpty = true
    · rw [if_pos he, if_pos he]
    · rw [if_neg he, if_neg he]

/-- C3 counterexample: a set call that changes the one existing scalar of a
one-field record in place (nothing is newly inserted, there are no complex
children, so the claim's count of wholly new fields is 0, not the total 1,
and the claim predicts the per-field map `a: (old 1, new 2)`).  The code
counts the in-place change in `iFullChange` (parent.py line 304) and
collapses the result into the single old/new pair, so the claim as stated
is false. -/
theorem c3_claim_counterexample :
    parentSet ["a"] [] (some [(.vstr "a", .vint 1)]) [(.vstr "a", .vint 2)]
        (fun _ => .vbool false) =
      .ok (.vdict [(.vstr "old", .vdict [(.vstr "a", .vint 1)]),
                   (.vstr "new", .vdict [(.vstr "a", .vint 2)])]) ∧
    (Except.ok (PyVal.vdict [(.vstr "old", .vdict [(.vstr "a", .vint 1)]),
                   (.vstr "new", .vdict [(.vstr "a", .vint 2)])]) :
        Except String PyVal) ≠
      .ok (.vdict [(.vstr "a",
        .vdict [(.vstr "old", .vint 1), (.vstr "new", .vint 2)])]) := by
  constructor
  · simp [parentSet, parentSetTablePart, normRow, columnsNoneCheck,
      updateScalars, childSetLoop, reorderRevs, pyGetRow, pyGetKey, keyInS,
      pyBeq, withoutKeys, without1]
  · simp

/-- C3 witness: the amended theorem applied to a two-column record with one
column changed in place: the wholly-changed count 1 differs from the total
2, so the result is the per-field map for column a. -/
theorem c3_set_revision_collapse_witness :
    parentSet ["a", "b"] []
        (some [(.vstr "_id", .vstr "i1"), (.vstr "a", .vint 1),
               (.vstr "b", .vint 2)])
        [(.vstr "a", .vint 9), (.vstr "b", .vint 2)] (fun _ => .vbool false) =
      .ok (.vdict [(.vstr "a",
        .vdict [(.vstr "old", .vint 1), (.vstr "new", .vint 9)])]) := by
  have h := c3_set_revision_collapse ["a", "b"] []
    (some [(.vstr "_id", .vstr "i1"), (.vstr "a", .vint 1),
           (.vstr "b", .vint 2)])
    [(.vstr "a", .vint 9), (.vstr "b", .vint 2)] (fun _ => .vbool false)
    (by simp)
    (by simp)
    (by intro f hf
        simp only [List.mem_cons, List.not_mem_nil, or_false] at hf
        rcases hf with rfl | rfl <;> simp [keyInS, pyBeq])
    (by simp)
    (by intro r hr f hf
        cases hr
        simp only [List.mem_cons, List.not_mem_nil, or_false] at hf
        rcases hf with rfl | rfl <;> simp [keyInS, pyBeq])
    (by simp)
  rw [h]
  simp [specSetResult, specScalarEntries, specScalarCount, specFullyChanged,
    specChildEntries, normRow, getD, pyBeq, keyInS]

/-!
## Claims C1 and C10: the flatten/elevate round trip and the empty get
-/

/-- C1: the claimed round trip `_elevate(_flatten(v)) == v` fails on the
code.  At the failing input - an Array-of-Leaf mapper (levels `["_a_0"]`,
node table) holding the value `["x", "y"]` - `_flatten` produces the two
expected rows, but `_elevate` executes `lRet = lRet[0]["_value"]`
(leveled.py line 247) on the list of row groups, a string subscript of a
list, which raises TypeError instead of returning the value; the round trip
therefore never returns `["x", "y"]`. -/
theorem c1_roundtrip_failing_input :
    (leveledFlatten true ["_a_0"] (.vlist [.vstr "x", .vstr "y"]) []).bind
      (fun rows => leveledElevate ["_a_0"] true rows 0) =
      .error "TypeError: list indices must be integers" ∧
    (leveledFlatten true ["_a_0"] (.vlist [.vstr "x", .vstr "y"]) []).bind
      (fun rows => leveledElevate ["_a_0"] true rows 0) ≠
      .ok (.vlist [.vstr "x", .vstr "y"]) := by
  have h : (leveledFlatten true ["_a_0"] (.vlist [.vstr "x", .vstr "y"]) []).bind
      (fun rows => leveledElevate ["_a_0"] true rows 0) =
      .error "TypeError: list indices must be integers" := by
    simp [leveledFlatten, flattenArrayItems, leveledElevate, isArrayLevel,
      elevateArrayGroupStep, pyGetRow, pyBeq, without1, setKey, setKeyV,
      List.foldlM, Except.bind, Bind.bind, Pure.pure, Except.pure]
  exact ⟨h, by rw [h]; simp⟩

/-- C10: for an Array-backed Leveled mapper (level columns `["_a_0"]`; every
constructible Leveled mapper has exactly one level column, since the
constructor loop of leveled.py lines 82-96 never updates its scrutinee
`sChild` and so never terminates for deeper nestings), `_elevate` applied to
an empty row list executes `lRet[0]` on the empty list of groups (leveled.py
lines 247 / 251) and raises IndexError rather than returning an empty list,
for both Leaf- and Record-terminated tables; `Leveled.get` of an id with no
rows therefore raises instead of returning an empty container. -/
theorem c10_empty_rows_index_error (node : Bool) :
    leveledElevate ["_a_0"] node [] 0 =
      .error "IndexError: list index out of range" ∧
    leveledGet ["_a_0"] node [] (fun _ _ => .vnone) [] =
      .error "IndexError: list index out of range" := by
  cases node <;>
    exact ⟨by simp [leveledElevate, isArrayLevel, List.foldlM, Except.bind,
        Bind.bind, Pure.pure, Except.pure],
      by simp [leveledGet, leveledElevate, isArrayLevel, List.foldlM,
        Except.bind, Bind.bind, Pure.pure, Except.pure]⟩

/-!
## Table gateway (src/record_mysql/table.py)

The table methods are embedded over explicit parameters standing for the
instance state (`self._struct.db/table/key/...` and the column containers of
`self._parent`) and for the external `server` module: `esc v` stands for
`server.escape(oNode, v, host)`.
-/

/-- nodeToTypeString embeds the string branch of `_node_to_type` (table.py
lines 87-128) for `base64`/`string` leaves: enumerated options become an
enum over their escaped literals; otherwise a maximum is required, char when
minimum equals maximum, else the tier picked by the upper bound. -/
def nodeToTypeString (esc : String → String) (options : Option (List String))
    (minimum maximum : Option Int) : Except String String :=
  match options with
  | some l => .ok ("enum(" ++ String.intercalate "," (l.map esc) ++ ")")
  | none =>
    match maximum with
    | none => .error "ValueError: string nodes must have a __maximum__ value"
    | some mx =>
      if minimum == some mx then .ok ("char(" ++ toString mx ++ ")")
      else if mx == 4294967295 then .ok "longtext"
      else if mx == 16777215 then .ok "mediumtext"
      else if mx == 65535 then .ok "text"
      else .ok ("varchar(" ++ toString mx ++ ")")

/-- specStringTier restates the claim's four variable-width tiers chosen by
the upper bound. -/
def specStringTier (mx : Int) : String :=
  if mx == 4294967295 then "longtext"
  else if mx == 16777215 then "mediumtext"
  else if mx == 65535 then "text"
  else "varchar(" ++ toString mx ++ ")"

/-- escListItem is the per-item escape of the membership branches of
`Table.process_value` (table.py lines 769-772, 833-845): NULL for None,
the server escape otherwise. -/
def escListItem (esc : PyVal → String) (i : PyVal) : String :=
  match i with
  | .vnone => "NULL"
  | v => esc v

/-- invalidFilterKeyMsg is the ValueError of table.py lines 868-871 (the
source text omits `like` from the listed keys). -/
def invalidFilterKeyMsg : String :=
  "ValueError: value key must be one of between, lt, gt, lte, gte, or neq"

/-- processValueDict embeds the operator-object branch of
`Table.process_value` (table.py lines 776-871): an if/elif chain that
applies the first present key in the order between, lt, gt, lte, gte, neq,
like, and raises the ValueError only when none of the seven is present.
(Subscripting a too-short between payload is an IndexError, subscripting a
non-sequence a TypeError; a string payload, which Python would index
characterwise, is folded into the TypeError case here.) -/
def processValueDict (esc : PyVal → String) (value : Row) :
    Except String String :=
  if keyInS value "between" then
    match getD value "between" with
    | .vlist l =>
      match l.get? 0, l.get? 1 with
      | some a, some b => .ok ("BETWEEN " ++ esc a ++ " AND " ++ esc b)
      | _, _ => .error "IndexError: list index out of range"
    | _ => .error "TypeError: value is not subscriptable"
  else if keyInS value "lt" then .ok ("< " ++ esc (getD value "lt"))
  else if keyInS value "gt" then .ok ("> " ++ esc (getD value "gt"))
  else if keyInS value "lte" then .ok ("<= " ++ esc (getD value "lte"))
  else if keyInS value "gte" then .ok (">= " ++ esc (getD value "gte"))
  else if keyInS value "neq" then
    match getD value "neq" with
    | .vlist l =>
      .ok ("NOT IN (" ++ String.intercalate "," (l.map (escListItem esc)) ++ ")")
    | .vnone => .ok "IS NOT NULL"
    | v => .ok ("!= " ++ esc v)
  else if keyInS value "like" then .ok ("LIKE " ++ esc (getD value "like"))
  else .error invalidFilterKeyMsg

/-- processValue embeds `Table.process_value` (table.py lines 747-887):
sequences become membership tests, dicts the operator branch, None becomes
IS NULL, and any other value an equality. -/
def processValue (esc : PyVal → String) (value : PyVal) :
    Except String String :=
  match value with
  | .vlist l =>
    .ok ("IN (" ++ String.intercalate "," (l.map (escListItem esc)) ++ ")")
  | .vdict d => processValueDict esc d
  | .vnone => .ok "IS NULL"
  | v => .ok ("= " ++ esc v)

/-- selectWhereClauses embeds the WHERE construction of `Table.select`
(table.py lines 974-997): a field absent from the column container raises
ValueError (with the source's `table.update.where` text) before any SQL is
built for it; the accepted clauses are joined with ",\n" as in the source. -/
def selectWhereClauses (esc : PyVal → String) (cols : List String)
    (whereM : List (String × PyVal)) : Except String String :=
  match whereM.mapM (fun fv =>
      (if fv.1 ∈ cols then
        match processValue esc fv.2 with
        | .error e => .error e
        | .ok s => .ok ("`" ++ fv.1 ++ "` " ++ s)
      else .error ("ValueError: record_mysql.table.update.where `" ++ fv.1 ++
        "` not a valid node") : Except String String)) with
  | .error e => .error e
  | .ok l => .ok ("WHERE " ++ String.intercalate ",\n" l)

/-- tableDelete embeds `Table.delete(where)` (table.py lines 532-581): the
where pairs are validated against the column container and joined with
" AND ", and the generated statement is `UPDATE dbname.tablename WHERE ...`
- an UPDATE with no SET clause (table.py line 573), not a DELETE. -/
def tableDelete (esc : PyVal → String) (db tbl : String) (cols : List String)
    (whereM : Option (List (String × PyVal))) : Except String String :=
  match whereM with
  | none => .ok ("UPDATE `" ++ db ++ "`.`" ++ tbl ++ "` ")
  | some w =>
    match w.mapM (fun fv =>
        (if fv.1 ∈ cols then
          match processValue esc fv.2 with
          | .error e => .error e
          | .ok s => .ok ("`" ++ fv.1 ++ "` " ++ s)
        else .error ("ValueError: record_mysql.table.delete.where `" ++ fv.1 ++
          "` not a valid node") : Except String String)) with
    | .error e => .error e
    | .ok l =>
      .ok ("UPDATE `" ++ db ++ "`.`" ++ tbl ++ "` " ++
        ("WHERE " ++ String.intercalate " AND " l))

/-- tableCreateRevisionsName is the revision table name created by
`Table.create` (table.py line 506, the `%s_revisions` format). -/
def tableCreateRevisionsName (tbl : String) : String := tbl ++ "_revisions"

/-- tableRevisionAddName is the table name targeted by
`Table.revision_add` (table.py line 918, the `%s_changes` format). -/
def tableRevisionAddName (tbl : String) : String := tbl ++ "_changes"

/-- createRevisionsSQL embeds the revision-table DDL emitted by
`Table.create` when revisions are enabled (table.py lines 506-524). -/
def createRevisionsSQL
    (db tbl keyCol idType idOpts engine charset collate : String) : String :=
  "CREATE TABLE IF NOT EXISTS `" ++ db ++ "`.`" ++
  tableCreateRevisionsName tbl ++ "` (`" ++ keyCol ++ "` " ++ idType ++
  " NOT NULL " ++ idOpts ++
  ", `created` TIMESTAMP NOT NULL DEFAULT CURRENT_TIMESTAMP, " ++
  "`items` TEXT NOT NULL, INDEX `" ++ keyCol ++ "` (`" ++ keyCol ++
  "`)) ENGINE=" ++ engine ++ " CHARSET=" ++ charset ++
  " COLLATE=" ++ collate

/-- revisionAddSQLBody is the INSERT emitted by `Table.revision_add`
(table.py lines 917-932); `escKey` stands for the escaped key and
`escItems` for `server.escape(jsonb.encode(items), host)`. -/
def revisionAddSQLBody (db tbl keyCol escKey escItems : String) : String :=
  "INSERT INTO `" ++ db ++ "`.`" ++ tableRevisionAddName tbl ++ "` (`" ++
  keyCol ++ "`, `created`, `items`) VALUES(" ++ escKey ++
  ", CURRENT_TIMESTAMP, \x27" ++ escItems ++ "\x27)"

/-- RevCfg models `self._struct.revisions`: disabled, plain True, or a list
of mandatory extra fields. -/
inductive RevCfg : Type
  | off
  | on
  | fields (l : List String)

/-- revisionAdd embeds `Table.revision_add(key, items)` (table.py lines
889-935): the disabled guard, the mandatory-field guard, then the INSERT
into `<table>_changes`. -/
def revisionAdd (cfg : RevCfg) (items : Row)
    (db tbl keyCol escKey escItems : String) : Except String String :=
  match cfg with
  | .off => .error "RuntimeError: table is not configured for revisions"
  | .fields l =>
    match l.find? (fun s => !(keyInS items s)) with
    | some s =>
      .error ("ValueError: record_mysql.table.revision_add.items missing " ++ s)
    | none => .ok (revisionAddSQLBody db tbl keyCol escKey escItems)
  | .on => .ok (revisionAddSQLBody db tbl keyCol escKey escItems)

/-- tableUuid embeds `Table.uuid` (table.py lines 1160-1173): the body
evaluates `server.uuid(self._struct.host)` but has no return statement, so
the method returns None; `serverUuid` stands for the external
`server.uuid`. -/
def tableUuid (serverUuid : String → String) (host : String) : Option String :=
  (fun _ => none) (serverUuid host)

/-- storageUuid embeds `Storage.uuid` (storage.py lines 642-654):
`return self._parent._table.uuid()`. -/
def storageUuid (serverUuid : String → String) (host : String) :
    Option String :=
  tableUuid serverUuid host

/-- C8: the compiled column type of a string-like leaf is the enumeration
over the escaped options when an options list exists; else an error when no
maximum length is set; else the fixed-width char(maximum) when minimum
equals maximum; else the variable-width tier chosen by the upper bound. -/
theorem c8_string_column_types (esc : String → String)
    (options : Option (List String)) (minimum maximum : Option Int) :
    (∀ l, options = some l →
      nodeToTypeString esc options minimum maximum =
        .ok ("enum(" ++ String.intercalate "," (l.map esc) ++ ")")) ∧
    (options = none → maximum = none →
      exceptIsOk (nodeToTypeString esc options minimum maximum) = false) ∧
    (∀ mx, options = none → maximum = some mx → minimum = some mx →
      nodeToTypeString esc options minimum maximum =
        .ok ("char(" ++ toString mx ++ ")")) ∧
    (∀ mx, options = none → maximum = some mx → minimum ≠ some mx →
      nodeToTypeString esc options minimum maximum =
        .ok (specStringTier mx)) := by
  refine ⟨?_, ?_, ?_, ?_⟩
  · intro l h
    subst h
    simp [nodeToTypeString]
  · intro h1 h2
    subst h1
    subst h2
    simp [nodeToTypeString, exceptIsOk]
  · intro mx h1 h2 h3
    subst h1
    subst h2
    subst h3
    simp [nodeToTypeString]
  · intro mx h1 h2 h3
    subst h1
    subst h2
    have hb : (minimum == some mx) = false := by
      simpa using h3
    simp only [nodeToTypeString, specStringTier, hb, Bool.false_eq_true,
      if_false, beq_iff_eq]
    split <;> try rfl
    split <;> try rfl
    split <;> rfl

/-- C8 witness: the theorem applied at concrete leaves: a fixed-length
string compiles to char(5), and a 1..65535 string to the text tier. -/
theorem c8_string_column_types_witness :
    nodeToTypeString (fun s => s) none (some 5) (some 5) =
      .ok "char(5)" ∧
    nodeToTypeString (fun s => s) none (some 1) (some 65535) = .ok "text" := by
  constructor
  · exact (c8_string_column_types (fun s => s) none (some 5) (some 5)).2.2.1
      5 rfl rfl rfl
  · have h := (c8_string_column_types (fun s => s) none (some 1)
      (some 65535)).2.2.2 65535 rfl rfl (by decide)
    rw [h]
    simp [specStringTier]

/-- opKeyPresent: some operator key of the seven is present in the dict. -/
def opKeyPresent (d : Row) : Bool :=
  keyInS d "between" || keyInS d "lt" || keyInS d "gt" || keyInS d "lte" ||
  keyInS d "gte" || keyInS d "neq" || keyInS d "like"

/-- selectWhereErr: a where pair whose field is not a known column makes the
whole clause construction fail. -/
theorem selectWhereErr (esc : PyVal → String) (cols : List String) :
    ∀ (whereM : List (String × PyVal)) (f : String) (v : PyVal),
    (f, v) ∈ whereM → ¬ f ∈ cols →
    exceptIsOk (selectWhereClauses esc cols whereM) = false := by
  intro whereM
  induction whereM with
  | nil => intro f v hm; cases hm
  | cons a rest ih =>
    intro f v hm hc
    rcases List.mem_cons.mp hm with rfl | hmem
    · unfold selectWhereClauses
      rw [List.mapM_cons]
      simp [hc, Except.bind, Bind.bind, exceptIsOk]
    · unfold selectWhereClauses
      rw [List.mapM_cons]
      by_cases ha : a.1 ∈ cols
      · rcases hpv : processValue esc a.2 with e | s
        · simp [ha, hpv, Except.bind, Bind.bind, exceptIsOk]
        · have hr := ih f v hmem hc
          unfold selectWhereClauses at hr
          rcases hmm : rest.mapM _ with e2 | l2
          · simp [ha, hpv, hmm, Except.bind, Bind.bind, Pure.pure,
              Except.pure, exceptIsOk]
          · rw [hmm] at hr
            simp [exceptIsOk] at hr
      · simp [ha, Except.bind, Bind.bind, exceptIsOk]

/-- processValueDictErrIff: the operator branch raises the invalid-key
ValueError exactly when none of the seven operator keys is present; any
present key is applied (first in chain order) and never raises that
error. -/
theorem processValueDictErrIff (esc : PyVal → String) (d : Row) :
    processValueDict esc d = .error invalidFilterKeyMsg ↔
      opKeyPresent d = false := by
  unfold processValueDict opKeyPresent
  by_cases h1 : keyInS d "between" = true
  · rw [if_pos h1]
    constructor
    · intro h
      exfalso
      rcases hB : getD d "between" with s | n | b | _ | l | dd <;> rw [hB] at h
      · simp [invalidFilterKeyMsg] at h
      · simp [invalidFilterKeyMsg] at h
      · simp [invalidFilterKeyMsg] at h
      · simp [invalidFilterKeyMsg] at h
      · rcases h0 : l[0]? with _ | a <;> rcases hh : l[1]? with _ | b2 <;>
          simp [h0, hh, invalidFilterKeyMsg] at h
      · simp [invalidFilterKeyMsg] at h
    · intro hfalse
      rw [h1] at hfalse
      simp at hfalse
  · rw [if_neg h1]
    by_cases h2 : keyInS d "lt" = true
    · rw [if_pos h2]
      constructor
      · intro h
        simp [invalidFilterKeyMsg] at h
      · intro hfalse
        rw [h2] at hfalse
        simp at hfalse
    · rw [if_neg h2]
      by_cases h3 : keyInS d "gt" = true
      · rw [if_pos h3]
        constructor
        · intro h
          simp [invalidFilterKeyMsg] at h
        · intro hfalse
          rw [h3] at hfalse
          simp at hfalse
      · rw [if_neg h3]
        by_cases h4 : keyInS d "lte" = true
        · rw [if_pos h4]
          constructor
          · intro h
            simp [invalidFilterKeyMsg] at h
          · intro hfalse
            rw [h4] at hfalse
            simp at hfalse
        · rw [if_neg h4]
          by_cases h5 : keyInS d "gte" = true
          · rw [if_pos h5]
            constructor
            · intro h
              simp [invalidFilterKeyMsg] at h
            · intro hfalse
              rw [h5] at hfalse
              simp at hfalse
          · rw [if_neg h5]
            by_cases h6 : keyInS d "neq" = true
            · rw [if_pos h6]
              constructor
              · intro h
                exfalso
                rcases hB : getD d "neq" with s | n | b | _ | l | dd <;>
                  rw [hB] at h <;> simp [invalidFilterKeyMsg] at h
              · intro hfalse
                rw [h6] at hfalse
                simp at hfalse
            · rw [if_neg h6]
              by_cases h7 : keyInS d "like" = true
              · rw [if_pos h7]
                constructor
                · intro h
                  simp [invalidFilterKeyMsg] at h
                · intro hfalse
                  rw [h7] at hfalse
                  simp at hfalse
              · rw [if_neg h7]
                constructor
                · intro _
                  simp only [Bool.not_eq_true] at h1 h2 h3 h4 h5 h6 h7
                  simp [h1, h2, h3, h4, h5, h6, h7]
                · intro _
                  rfl

/-- C7 (amended): building a where clause from an operator object raises the
invalid-filter-key ValueError exactly when none of the seven operator keys
between, lt, gt, lte, gte, neq, like is present - several present keys are
not rejected, the first in the chain order is applied silently - and a
where field that is not a known column makes select fail with ValueError
before reaching the backend. -/
theorem c7_filter_key_errors (esc : PyVal → String) (d : Row) :
    (processValueDict esc d = .error invalidFilterKeyMsg ↔
      opKeyPresent d = false) ∧
    (∀ (cols : List String) (whereM : List (String × PyVal)) (f : String)
      (v : PyVal), (f, v) ∈ whereM → ¬ f ∈ cols →
      exceptIsOk (selectWhereClauses esc cols whereM) = false) :=
  ⟨processValueDictErrIff esc d,
   fun cols whereM f v hm hc => selectWhereErr esc cols whereM f v hm hc⟩

/-- C7 witness: the amended theorem at concrete inputs: a where clause over
the unknown field b fails, and an operator object carrying the key neq is
not rejected with the invalid-key error. -/
theorem c7_filter_key_errors_witness :
    exceptIsOk (selectWhereClauses (fun _ => "X") ["a"]
      [("b", PyVal.vint 1)]) = false ∧
    processValueDict (fun _ => "X") [(.vstr "neq", .vnone)] ≠
      .error invalidFilterKeyMsg := by
  constructor
  · exact (c7_filter_key_errors (fun _ => "X") []).2 ["a"]
      [("b", PyVal.vint 1)] "b" (PyVal.vint 1) (by simp) (by simp)
  · intro hc
    have h := ((c7_filter_key_errors (fun _ => "X")
      [(.vstr "neq", .vnone)]).1).mp hc
    simp [opKeyPresent, keyInS, pyBeq] at h

/-- C7 counterexample: an operator object carrying both lt and gt is not
rejected: the chain applies lt and silently ignores gt, while the claim
says more than one operator key must fail with the invalid-filter-key
error. -/
theorem c7_multiple_keys_counterexample :
    keyInS [(.vstr "lt", .vint 5), (.vstr "gt", .vint 3)] "lt" = true ∧
    keyInS [(.vstr "lt", .vint 5), (.vstr "gt", .vint 3)] "gt" = true ∧
    processValueDict (fun _ => "X")
      [(.vstr "lt", .vint 5), (.vstr "gt", .vint 3)] = .ok "< X" := by
  refine ⟨by simp [keyInS, pyBeq], by simp [keyInS, pyBeq], ?_⟩
  simp [processValueDict, keyInS, pyBeq, getD]

/-- C4: evaluating `Table.delete` at a concrete call: deleting where
`_id = abc123` generates the statement `UPDATE mydb.users WHERE ...` - an
UPDATE with no SET clause, not a DELETE statement - so executing it removes
no row and the claim that no matching row remains after delete fails on the
code (mapper-level deletion cannot work either: Parent defines no delete
method at all, so `Storage.remove`'s `self._parent.delete(...)` raises
AttributeError). -/
theorem c4_delete_generates_update :
    tableDelete
      (fun v => match v with
        | .vstr s => "\x27" ++ s ++ "\x27"
        | _ => "?")
      "mydb" "users" ["_id", "name"] (some [("_id", .vstr "abc123")]) =
      .ok "UPDATE `mydb`.`users` WHERE `_id` = \x27abc123\x27" ∧
    ∀ s : String,
      "UPDATE `mydb`.`users` WHERE `_id` = \x27abc123\x27" ≠ "DELETE" ++ s := by
  constructor
  · simp only [tableDelete, processValue, List.mapM, List.mapM.loop,
      Except.bind, Bind.bind, Pure.pure, Except.pure]
    rfl
  · intro s h
    have h2 := congrArg (fun t => t.data.head?) h
    simp only [String.data_append] at h2
    simp at h2

/-- C6: `Table.create` builds the parallel revision table under the name
`<table>_revisions`, but every entry written by `Table.revision_add` is
inserted into `<table>_changes`, a table create never builds - the two
names differ for every table, so the claim that revision entries go into
the same `<table>_revisions` table fails on the code. -/
theorem c6_revision_table_mismatch :
    (∀ tbl : String, tableRevisionAddName tbl ≠ tableCreateRevisionsName tbl) ∧
    revisionAdd .on [] "db" "users" "_id" "K" "I" =
      .ok ("INSERT INTO `db`.`users_changes` (`_id`, `created`, `items`) " ++
        "VALUES(K, CURRENT_TIMESTAMP, \x27I\x27)") ∧
    createRevisionsSQL "db" "users" "_id" "char(36)" "not null" "InnoDB"
        "utf8mb4" "utf8mb4_bin" =
      ("CREATE TABLE IF NOT EXISTS `db`.`users_revisions` (`_id` char(36) " ++
       "NOT NULL not null, `created` TIMESTAMP NOT NULL DEFAULT " ++
       "CURRENT_TIMESTAMP, `items` TEXT NOT NULL, INDEX `_id` (`_id`)) " ++
       "ENGINE=InnoDB CHARSET=utf8mb4 COLLATE=utf8mb4_bin") := by
  refine ⟨?_, by rfl, by rfl⟩
  intro tbl h
  have h2 := congrArg String.length h
  simp only [tableRevisionAddName, tableCreateRevisionsName,
    String.length_append] at h2
  have hc : ("_changes" : String).length = 8 := by decide
  have hr : ("_revisions" : String).length = 10 := by decide
  rw [hc, hr] at h2
  omega

/-- C9: `Table.uuid` evaluates the server call but has no return statement,
so it returns None on every call, and `Storage.uuid`, which returns
`self._parent._table.uuid()`, consequently also returns None on every
call. -/
theorem c9_uuid_returns_none (serverUuid : String → String) (host : String) :
    tableUuid serverUuid host = none ∧ storageUuid serverUuid host = none :=
  ⟨rfl, rfl⟩

/-!
## Mapper filter methods (src/record_mysql/parent.py, leveled.py)
-/

/-- parentClassAttrs lists the attributes a Parent instance actually has:
the fields set by the Base and Parent constructors (base.py lines 58-70)
and the methods defined on Parent and Base.  `get_ids` is not among them;
the defined resolver method is `_get_ids`. -/
def parentClassAttrs : List String :=
  ["_name", "_parent", "_keys", "_columns", "_complex", "_table",
   "_get_ids", "add_type", "create_type", "filter", "get", "install",
   "set", "struct", "update"]

/-- baseGetAttr models Python attribute lookup on a Parent instance: a real
attribute resolves; any other name goes through `Base.__getattr__`, which
tries `self._complex[name]` (base.py lines 72-112) and raises
AttributeError when the name is not a nested complex field. -/
def baseGetAttr (complexNames : List String) (name : String) :
    Except String Unit :=
  if name ∈ parentClassAttrs then .ok ()
  else if name ∈ complexNames then .ok ()
  else .error ("AttributeError: " ++ name)

/-- parentFilter embeds `Parent.filter` (parent.py lines 152-173):
`selectIds` stands for the distinct `_id` values of the table select; the
method returns `self.get_ids([...])`, and the `get_ids` attribute lookup
raises AttributeError (were a nested field literally named get_ids, the
attribute would be a child mapper instance, and calling it would raise
TypeError instead). -/
def parentFilter (complexNames : List String) (selectIds : List String) :
    Except String (List String) :=
  match baseGetAttr complexNames "get_ids" with
  | .error e => .error e
  | .ok _ => .error "TypeError: Base instance is not callable"

/-- leveledFilter embeds `Leveled.filter` (leveled.py lines 447-472): the
distinct `_parent` values are resolved, then
`self._parent and self._parent.get_ids(lIDs) or lIDs` runs; a Leveled
mapper always has a parent (leveled.py lines 55-57), and that parent mapper
has no `get_ids` attribute either. -/
def leveledFilter (parentComplexNames : List String)
    (selectParents : List String) : Except String (List String) :=
  match baseGetAttr parentComplexNames "get_ids" with
  | .error e => .error e
  | .ok _ => .error "TypeError: Base instance is not callable"

/-- C5: no filter call returns the claimed set of root identifiers: both
`Parent.filter` and `Leveled.filter` call `get_ids` on a mapper, a name
defined on no mapper class (the resolver is `_get_ids`), so every filter
call raises instead of returning identifiers. -/
theorem c5_filter_raises (complexNames selectIds : List String) :
    exceptIsOk (parentFilter complexNames selectIds) = false ∧
    exceptIsOk (leveledFilter complexNames selectIds) = false := by
  constructor
  · unfold parentFilter
    rcases hb : baseGetAttr complexNames "get_ids" with e | u <;>
      simp [hb, exceptIsOk]
  · unfold leveledFilter
    rcases hb : baseGetAttr complexNames "get_ids" with e | u <;>
      simp [hb, exceptIsOk]

/-!
## Transaction batch

Modelled from the spec: the Transaction class (record_mysql/transaction.py)
is imported by parent.py, storage.py and base.py, but its source file is
not under src/.  Spec section 4.5: a Transaction is an ordered queue of
insert/update/delete/raw entries accumulated across the mapper recursion
for one logical call; running it executes every entry in order inside one
all-or-nothing unit; any failure aborts the remaining entries and reports
failure to the caller, partial application being prevented by backend
rollback.  The backend is modelled as a named-table store of dict rows; an
entry against a table the store does not have fails, standing for any
backend execution failure.
-/

/-- TEntry is one queued operation of a Transaction batch (spec 4.5). -/
inductive TEntry : Type
  | tinsert (table : String) (values : Row)
  | tupdate (table : String) (values : Row) (whereW : Row)
  | tdelete (table : String) (whereW : Row)
  | traw (sql : String)

/-- DBState is the modelled backend store: table name to list of rows. -/
abbrev DBState := List (String × List Row)

/-- rowMatchesW: a row satisfies every field/value pair of a where dict. -/
def rowMatchesW (whereW : Row) (r : Row) : Bool :=
  whereW.all (fun kv => match kv.1 with
    | .vstr f => keyInS r f && pyBeq (getD r f) kv.2
    | _ => false)

/-- updateRowW applies the set pairs of an update to one row. -/
def updateRowW (r : Row) (values : Row) : Row :=
  values.foldl (fun acc kv => setKeyV acc kv.1 kv.2) r

/-- dbHasTable: the store has a table of that name. -/
def dbHasTable (db : DBState) (t : String) : Bool :=
  db.any (fun te => te.1 == t)

/-- dbApplyOnTable rewrites the rows of one table of the store. -/
def dbApplyOnTable (db : DBState) (t : String)
    (f : List Row → List Row) : DBState :=
  db.map (fun te => if te.1 == t then (te.1, f te.2) else te)

/-- applyEntry runs one entry against the store; none models the backend
reporting a failure for that statement. -/
def applyEntry (db : DBState) : TEntry → Option DBState
  | .tinsert t v =>
    if dbHasTable db t then
      some (dbApplyOnTable db t (fun rows => rows ++ [v]))
    else none
  | .tupdate t v w =>
    if dbHasTable db t then
      some (dbApplyOnTable db t (fun rows =>
        rows.map (fun r => if rowMatchesW w r then updateRowW r v else r)))
    else none
  | .tdelete t w =>
    if dbHasTable db t then
      some (dbApplyOnTable db t (fun rows =>
        rows.filter (fun r => !(rowMatchesW w r))))
    else none
  | .traw _ => some db

/-- runEntries runs the queued entries in order; the first failure aborts
the remaining entries. -/
def runEntries : List TEntry → DBState → Option DBState
  | [], db => some db
  | e :: rest, db =>
    match applyEntry db e with
    | none => none
    | some db2 => runEntries rest db2

/-- transactionRun models `Transaction.run()`: the entries execute as one
unit; on any failure the backend rolls the whole unit back, leaving the
store at its pre-call state, and False is reported to the caller (which
`Parent.set`/`Storage.add` turn into a False/None result). -/
def transactionRun (entries : List TEntry) (db : DBState) : Bool × DBState :=
  match runEntries entries db with
  | some db2 => (true, db2)
  | none => (false, db)

/-- dbSelect models a subsequent get: the rows of one table matching a
where dict. -/
def dbSelect (db : DBState) (t : String) (whereW : Row) : List Row :=
  match db.find? (fun te => te.1 == t) with
  | some te => te.2.filter (rowMatchesW whereW)
  | none => []

/-- C2 (spec-modelled): if any queued entry of a batch fails during
execution, the run reports failure to the caller and no entry of the batch
is observably applied: the store equals the pre-call state and every
subsequent select returns exactly what it returned before the call. -/
theorem c2_batch_atomicity (entries : List TEntry) (db : DBState)
    (hfail : (transactionRun entries db).1 = false) :
    (transactionRun entries db).2 = db ∧
    ∀ (t : String) (whereW : Row),
      dbSelect (transactionRun entries db).2 t whereW =
        dbSelect db t whereW := by
  unfold transactionRun at hfail ⊢
  rcases hr : runEntries entries db with _ | db2
  · exact ⟨rfl, fun t w => rfl⟩
  · rw [hr] at hfail
    simp at hfail

/-- C2 witness: a batch whose insert targets a missing table fails, the run
reports False, and a get on the existing table sees the pre-call state. -/
theorem c2_batch_atomicity_witness :
    (transactionRun [TEntry.tinsert "t" []] ([("u", [])] : DBState)).1 =
      false ∧
    dbSelect (transactionRun [TEntry.tinsert "t" []] [("u", [])]).2 "u" [] =
      dbSelect [("u", [])] "u" [] := by
  have hfail : (transactionRun [TEntry.tinsert "t" []]
      ([("u", [])] : DBState)).1 = false := by
    simp [transactionRun, runEntries, applyEntry, dbHasTable]
  exact ⟨hfail,
    (c2_batch_atomicity [TEntry.tinsert "t" []] [("u", [])] hfail).2 "u" []⟩
